import Mathlib

/-!
Shallow embedding of `src/DynamicLibrary.cpp` (namespace `dl`): the
`DynamicLibrary` handle (load / unload / reload / symbol resolution with
caching / modification polling / reload-capability probe) and the
`DynamicLibraryManager` registry.

The host platform (POSIX branch: `dlopen`, `dlclose`, `dlsym`, `stat`,
`std::ifstream`) is modelled as an environment of response functions; one
`Env` value describes the platform's answers during one operation.  Native
module handles are modelled as `Option Nat` (`none` = null pointer).
Timestamps are `Int`.  The `std::unordered_map` symbol cache is an
association list whose lookup takes the first matching key; the source only
inserts after a failed lookup, so head-insertion coincides with map update.
-/

namespace DynLib

/-- Platform and filesystem responses during one operation.
`fileAccessible` models `std::ifstream(path).good()`; `mtime` models
`stat` (`none` = failure, triggering the fallback to `now`); `dlopenNoload`
models `dlopen(path, RTLD_NOW | RTLD_NOLOAD)`; `dlopenNow` models
`dlopen(path, RTLD_NOW | RTLD_LOCAL)`; `dlcloseOk` models whether
`dlclose(h) == 0`; `dlsym` models `dlsym(handle, name)` with `none` meaning
the `dlerror()`-reported failure; `dlerrorMsg` is the diagnostic string. -/
structure Env where
  fileAccessible : String → Bool
  mtime : String → Option Int
  now : Int
  dlopenNoload : String → Option Nat
  dlopenNow : String → Option Nat
  dlcloseOk : Nat → Bool
  dlsym : Option Nat → String → Option Nat
  dlerrorMsg : String

/-- `DynamicLibrary::Implementation::LibraryInfo`. -/
structure LibraryInfo where
  handle : Option Nat := none
  path : String := ""
  last_modified : Int := 0
  symbol_cache : List (String × Nat) := []
  reload_capability_tested : Bool := false
  can_reload : Bool := true
deriving Repr, DecidableEq

/-- `DynamicLibrary::Implementation`: the library record plus the auto-reload
mode (`true` = `AutoReload::Enabled`) and the stored error message. -/
structure Impl where
  lib : LibraryInfo := {}
  auto_reload : Bool := true
  error_message : String := ""
deriving Repr, DecidableEq

/-- `Implementation::validatePath`. -/
def validatePath (env : Env) (s : Impl) (p_path : String) : Bool × Impl :=
  if p_path = "" then
    (false, { s with error_message := "Library path cannot be empty" })
  else if env.fileAccessible p_path = false then
    (false, { s with error_message :=
        "Library file does not exist or is not accessible: " ++ p_path })
  else
    (true, s)

/-- `Implementation::getFileModificationTime`: `stat` result on success,
falling back to `system_clock::now()` when the file is inaccessible. -/
def getFileModificationTime (env : Env) (p_path : String) : Int :=
  match env.mtime p_path with
  | some t => t
  | none => env.now

/-- `Implementation::loadInternal`: `lib.handle = dlopen(path, RTLD_NOW |
RTLD_LOCAL)`; on null handle, records the error message. -/
def loadInternal (env : Env) (s : Impl) : Bool × Impl :=
  match env.dlopenNow s.lib.path with
  | some h => (true, { s with lib.handle := some h })
  | none =>
      (false, { s with lib := { s.lib with handle := none },
                       error_message :=
                         "Failed to load library '" ++ s.lib.path ++ "': "
                           ++ env.dlerrorMsg })

/-- `Implementation::unloadInternal`: no-op success on a null handle;
otherwise clears the symbol cache, calls `dlclose`, records the error
message on failure, and nulls the handle either way. -/
def unloadInternal (env : Env) (s : Impl) : Bool × Impl :=
  match s.lib.handle with
  | none => (true, s)
  | some h =>
      let s1 : Impl := { s with lib.symbol_cache := [] }
      let success := env.dlcloseOk h
      let s2 : Impl :=
        if success then s1
        else { s1 with error_message :=
          "Failed to unload library '" ++ s1.lib.path ++ "': "
            ++ env.dlerrorMsg }
      (success, { s2 with lib.handle := none })

/-- `Implementation::getSymbolInternal`: `dlsym` on the current handle;
`none` records the symbol-not-found error message. -/
def implGetSymbolInternal (env : Env) (s : Impl) (name : String) :
    Option Nat × Impl :=
  match env.dlsym s.lib.handle name with
  | some sym => (some sym, s)
  | none =>
      (none, { s with error_message :=
        "Symbol '" ++ name ++ "' not found in library '" ++ s.lib.path
          ++ "': " ++ env.dlerrorMsg })

/-- `Implementation::needsReload`: current file modification time strictly
newer than the stored baseline. -/
def needsReload (env : Env) (s : Impl) : Bool :=
  decide (getFileModificationTime env s.lib.path > s.lib.last_modified)

/-- `Implementation::canReload` (POSIX branch): cached verdict if the handle
is null or the probe already ran; otherwise marks the probe done and probes
via `dlopen(RTLD_NOLOAD)` then, if not resident, a plain `dlopen`, checking
the probe handle closes cleanly. -/
def canReload (env : Env) (s : Impl) : Bool × Impl :=
  match s.lib.handle with
  | none => (s.lib.can_reload, s)
  | some _ =>
      if s.lib.reload_capability_tested then
        (s.lib.can_reload, s)
      else
        let s1 : Impl := { s with lib.reload_capability_tested := true }
        match env.dlopenNoload s1.lib.path with
        | some th =>
            let cr := env.dlcloseOk th
            (cr, { s1 with lib.can_reload := cr })
        | none =>
            match env.dlopenNow s1.lib.path with
            | some th =>
                let cr := env.dlcloseOk th
                (cr, { s1 with lib.can_reload := cr })
            | none => (false, { s1 with lib.can_reload := false })

/-- Unload-then-load tail of `Implementation::reloadInternal`, run once the
capability probe has passed; `s1` is the post-probe state.  Unload failure is
only logged; the path is saved across the unload, the modification baseline
re-captured, and the platform loader invoked again. -/
def reloadCore (env : Env) (s1 : Impl) : Bool × Impl :=
  let path := s1.lib.path
  let u := unloadInternal env s1
  let s3 : Impl :=
    if u.1 then u.2
    else { u.2 with error_message :=
      "Warning: Unload failed, attempting reload anyway" }
  let s4 : Impl := { s3 with lib :=
    { s3.lib with path := path,
                  last_modified := getFileModificationTime env path } }
  let l := loadInternal env s4
  if l.1 then (true, l.2)
  else
    (false, { l.2 with error_message :=
      "Failed to reload library '" ++ path ++ "': " ++ l.2.error_message })

/-- `Implementation::reloadInternal`: probe first (failure aborts with the
unsupported-reload message), then the unload-then-load tail. -/
def reloadInternal (env : Env) (s : Impl) : Bool × Impl :=
  match canReload env s with
  | (false, s1) =>
      (false, { s1 with error_message :=
        "Library cannot be reloaded - reload capability not supported" })
  | (true, s1) => reloadCore env s1

/-- `DynamicLibrary::load`: unloads the current module first (result
ignored), validates the path, captures the baseline timestamp and
auto-reload mode, and invokes the platform loader. -/
def load (env : Env) (s : Impl) (p_path : String) (p_auto : Bool) :
    Bool × Impl :=
  let s1 : Impl :=
    match s.lib.handle with
    | some _ => (unloadInternal env s).2
    | none => s
  match validatePath env s1 p_path with
  | (false, s2) => (false, s2)
  | (true, s2) =>
      let s3 : Impl := { s2 with lib :=
        { s2.lib with path := p_path,
                      last_modified := getFileModificationTime env p_path },
                                 auto_reload := p_auto }
      loadInternal env s3

/-- `DynamicLibrary::unload`. -/
def unload (env : Env) (s : Impl) : Bool × Impl :=
  unloadInternal env s

/-- `DynamicLibrary::isLoaded`. -/
def isLoaded (s : Impl) : Bool :=
  s.lib.handle.isSome

/-- Result of `DynamicLibrary::getSymbolInternal`, instrumented with the
number of internal `reloadInternal` invocations and of platform `dlsym`
resolutions performed during the call. -/
structure GetSymbolResult where
  symbol : Option Nat
  st : Impl
  reloads : Nat
  resolutions : Nat
deriving Repr, DecidableEq

/-- Cache lookup + platform resolution tail of
`DynamicLibrary::getSymbolInternal` (after the not-loaded check and the
optional auto-reload), with `r` the reload count already performed. -/
def finishGetSymbol (env : Env) (s : Impl) (name : String) (r : Nat) :
    GetSymbolResult :=
  match (s.lib.symbol_cache.find? (fun p => p.1 == name)) with
  | some p => ⟨some p.2, s, r, 0⟩
  | none =>
      match implGetSymbolInternal env s name with
      | (some sym, s1) =>
          ⟨some sym,
            { s1 with lib.symbol_cache := (name, sym) :: s1.lib.symbol_cache },
            r, 1⟩
      | (none, s1) => ⟨none, s1, r, 1⟩

/-- `DynamicLibrary::getSymbolInternal`: fails when not loaded; with
auto-reload enabled and a stale file, reloads first (a reload failure fails
the call); then consults the cache and only on a miss resolves via the
platform, caching a successful result. -/
def getSymbolInternal (env : Env) (s : Impl) (name : String) :
    GetSymbolResult :=
  match s.lib.handle with
  | none => ⟨none, { s with error_message := "Library not loaded" }, 0, 0⟩
  | some _ =>
      if s.auto_reload && needsReload env s then
        match reloadInternal env s with
        | (false, s1) => ⟨none, s1, 1, 0⟩
        | (true, s1) => finishGetSymbol env s1 name 1
      else
        finishGetSymbol env s name 0

/-- `DynamicLibrary::checkForUpdates`: a pure query (returns only a
`Bool`, no state) delegating to `needsReload`. -/
def checkForUpdates (env : Env) (s : Impl) : Bool :=
  needsReload env s

/-- `DynamicLibrary::reload`: `lib.handle && reloadInternal()`. -/
def reload (env : Env) (s : Impl) : Bool × Impl :=
  match s.lib.handle with
  | none => (false, s)
  | some _ => reloadInternal env s

/-- `DynamicLibrary::setAutoReload`. -/
def setAutoReload (s : Impl) (b : Bool) : Impl :=
  { s with auto_reload := b }

/-- `DynamicLibrary::touch`: forces the baseline to `now` and, with
auto-reload enabled, immediately runs `reloadInternal`. -/
def touch (env : Env) (s : Impl) : Bool × Impl :=
  let s1 : Impl := { s with lib.last_modified := env.now }
  if s1.auto_reload then reloadInternal env s1
  else (true, s1)

/-- `DynamicLibraryManager`: the name-keyed registry, as an association
list from names to owned handle states. -/
abbrev Manager := List (String × Impl)

/-- `DynamicLibraryManager::getLibrary`. -/
def getLibrary (m : Manager) (name : String) : Option Impl :=
  (m.find? (fun p => p.1 == name)).map Prod.snd

/-- `DynamicLibraryManager::loadLibrary`: lookup-or-create.  On a hit the
existing handle is returned and the registry is unchanged; on a miss the
throwing constructor `DynamicLibrary(path, mode)` runs `load` on a fresh
record and raises the stored error message on failure. -/
def loadLibrary (env : Env) (m : Manager) (name p_path : String)
    (mode : Bool) : Except String (Impl × Manager) :=
  match m.find? (fun p => p.1 == name) with
  | some p => Except.ok (p.2, m)
  | none =>
      match load env {} p_path mode with
      | (true, s) => Except.ok (s, m ++ [(name, s)])
      | (false, s) => Except.error s.error_message

/-- `DynamicLibraryManager::unloadLibrary`: erase by name. -/
def unloadLibrary (m : Manager) (name : String) : Manager :=
  m.filter (fun p => !(p.1 == name))

/-- `DynamicLibraryManager::checkAllForUpdates`: true as soon as any
registered handle reports an update (a pure query: no handle state is
touched). -/
def checkAllForUpdates (env : Env) (m : Manager) : Bool :=
  m.any (fun p => checkForUpdates env p.2)

/-- The data-model invariant: the symbol cache is empty whenever the native
handle is null. -/
def CacheInv (s : Impl) : Prop :=
  s.lib.handle = none → s.lib.symbol_cache = []

/-- Test platform: every file accessible, `stat` reports time 5, `dlopen`
succeeds (probe handle 11, real handle 12), `dlclose` succeeds, `dlsym`
resolves every symbol to address 77. -/
def envT : Env :=
  { fileAccessible := fun _ => true
    mtime := fun _ => some 5
    now := 100
    dlopenNoload := fun _ => some 11
    dlopenNow := fun _ => some 12
    dlcloseOk := fun _ => true
    dlsym := fun _ _ => some 77
    dlerrorMsg := "err" }

/-- `envT` after the backing file was modified (time 9 > baseline 5). -/
def envStale : Env := { envT with mtime := fun _ => some 9 }

/-- `envT` with `stat` failing, so modification-time queries fall back to
`now`. -/
def envNoM : Env := { envT with mtime := fun _ => none }

/-- `envT` with the file unreadable (`ifstream.good()` false). -/
def envNoFile : Env := { envT with fileAccessible := fun _ => false }

/-- `envT` with the platform unloader failing (`dlclose != 0`). -/
def envCloseFail : Env := { envT with dlcloseOk := fun _ => false }

/-- A handle freshly loaded from "liba" under `envT`. -/
def implLoadedT : Impl := (load envT {} "liba" true).2

/-- `implLoadedT` after a capability probe that failed (`dlclose` error):
`reload_capability_tested = true`, `can_reload = false`. -/
def implProbedT : Impl := (canReload envCloseFail implLoadedT).2

/-- `implLoadedT` after resolving symbol "f" (cache holds ("f", 77)). -/
def implCachedT : Impl := (getSymbolInternal envT implLoadedT "f").st

/-- `implCachedT` with auto-reload disabled. -/
def implCachedNoAuto : Impl := setAutoReload implCachedT false

/-- A registry holding one handle under the name "a". -/
def mgrT : Manager := [("a", implLoadedT)]

theorem unloadInternal_handle_eq_none (env : Env) (s : Impl) :
    (unloadInternal env s).2.lib.handle = none := by
  cases hh : s.lib.handle with
  | none => simp [unloadInternal, hh]
  | some h => cases hc : env.dlcloseOk h <;> simp [unloadInternal, hh, hc]

theorem unloadInternal_cache_some (env : Env) (s : Impl) (h : Nat)
    (hl : s.lib.handle = some h) :
    (unloadInternal env s).2.lib.symbol_cache = [] := by
  cases hc : env.dlcloseOk h <;> simp [unloadInternal, hl, hc]

theorem unloadInternal_cache_empty (env : Env) (s : Impl)
    (hinv : CacheInv s) :
    (unloadInternal env s).2.lib.symbol_cache = [] := by
  cases hh : s.lib.handle with
  | none => simpa [unloadInternal, hh] using hinv hh
  | some h => exact unloadInternal_cache_some env s h hh

theorem unloadInternal_fields (env : Env) (s : Impl) :
    (unloadInternal env s).2.lib.path = s.lib.path ∧
    (unloadInternal env s).2.lib.last_modified = s.lib.last_modified ∧
    (unloadInternal env s).2.lib.reload_capability_tested
      = s.lib.reload_capability_tested ∧
    (unloadInternal env s).2.lib.can_reload = s.lib.can_reload ∧
    (unloadInternal env s).2.auto_reload = s.auto_reload := by
  cases hh : s.lib.handle with
  | none => simp [unloadInternal, hh]
  | some h => cases hc : env.dlcloseOk h <;> simp [unloadInternal, hh, hc]

theorem loadInternal_fields (env : Env) (s : Impl) :
    (loadInternal env s).2.lib.symbol_cache = s.lib.symbol_cache ∧
    (loadInternal env s).2.lib.path = s.lib.path ∧
    (loadInternal env s).2.lib.last_modified = s.lib.last_modified ∧
    (loadInternal env s).2.lib.reload_capability_tested
      = s.lib.reload_capability_tested ∧
    (loadInternal env s).2.lib.can_reload = s.lib.can_reload ∧
    (loadInternal env s).2.auto_reload = s.auto_reload ∧
    (loadInternal env s).2.lib.handle = env.dlopenNow s.lib.path ∧
    (loadInternal env s).1 = (env.dlopenNow s.lib.path).isSome := by
  cases hd : env.dlopenNow s.lib.path <;> simp [loadInternal, hd]

theorem canReload_fields (env : Env) (s : Impl) :
    (canReload env s).2.lib.handle = s.lib.handle ∧
    (canReload env s).2.lib.symbol_cache = s.lib.symbol_cache ∧
    (canReload env s).2.lib.path = s.lib.path ∧
    (canReload env s).2.lib.last_modified = s.lib.last_modified ∧
    (canReload env s).2.auto_reload = s.auto_reload ∧
    (canReload env s).2.error_message = s.error_message := by
  cases hh : s.lib.handle with
  | none => simp [canReload, hh]
  | some h =>
      cases ht : s.lib.reload_capability_tested with
      | true => simp [canReload, hh, ht]
      | false =>
          cases hn : env.dlopenNoload s.lib.path with
          | some th => simp [canReload, hh, ht, hn]
          | none =>
              cases ho : env.dlopenNow s.lib.path <;>
                simp [canReload, hh, ht, hn, ho]

theorem canReload_of_tested (env : Env) (s : Impl)
    (ht : s.lib.reload_capability_tested = true) :
    canReload env s = (s.lib.can_reload, s) := by
  cases hh : s.lib.handle <;> simp [canReload, hh, ht]

theorem reloadCore_spec (env : Env) (s1 : Impl) :
    (reloadCore env s1).1 = (env.dlopenNow s1.lib.path).isSome ∧
    (reloadCore env s1).2.lib.handle = env.dlopenNow s1.lib.path ∧
    (reloadCore env s1).2.lib.path = s1.lib.path ∧
    (reloadCore env s1).2.lib.last_modified
      = getFileModificationTime env s1.lib.path ∧
    (reloadCore env s1).2.lib.reload_capability_tested
      = s1.lib.reload_capability_tested ∧
    (reloadCore env s1).2.lib.can_reload = s1.lib.can_reload ∧
    (reloadCore env s1).2.auto_reload = s1.auto_reload ∧
    (∀ h, s1.lib.handle = some h →
      (reloadCore env s1).2.lib.symbol_cache = []) ∧
    (s1.lib.symbol_cache = [] →
      (reloadCore env s1).2.lib.symbol_cache = []) := by
  cases hh : s1.lib.handle with
  | none =>
      cases hd : env.dlopenNow s1.lib.path <;>
        simp [reloadCore, unloadInternal, loadInternal, hh, hd]
  | some h =>
      cases hc : env.dlcloseOk h <;>
        cases hd : env.dlopenNow s1.lib.path <;>
          simp [reloadCore, unloadInternal, loadInternal, hh, hc, hd]

theorem reloadInternal_of_canReload_false (env : Env) (s : Impl)
    (hcr : (canReload env s).1 = false) :
    reloadInternal env s =
      (false, { (canReload env s).2 with error_message :=
        "Library cannot be reloaded - reload capability not supported" }) := by
  rcases hc : canReload env s with ⟨b, s1⟩
  rw [hc] at hcr
  simp only at hcr
  subst hcr
  simp [reloadInternal, hc]

theorem reloadInternal_of_canReload_true (env : Env) (s : Impl)
    (hcr : (canReload env s).1 = true) :
    reloadInternal env s = reloadCore env (canReload env s).2 := by
  rcases hc : canReload env s with ⟨b, s1⟩
  rw [hc] at hcr
  simp only at hcr
  subst hcr
  simp [reloadInternal, hc]

theorem reloadInternal_cacheInv (env : Env) (s : Impl) (hinv : CacheInv s) :
    CacheInv (reloadInternal env s).2 := by
  have hf := canReload_fields env s
  cases hb : (canReload env s).1 with
  | false =>
      rw [reloadInternal_of_canReload_false env s hb]
      intro hn
      simp only at hn ⊢
      rw [hf.1] at hn
      rw [hf.2.1]
      exact hinv hn
  | true =>
      rw [reloadInternal_of_canReload_true env s hb]
      obtain ⟨-, -, -, -, -, -, -, c8, c9⟩ :=
        reloadCore_spec env (canReload env s).2
      cases hh : (canReload env s).2.lib.handle with
      | some h => exact fun _ => c8 h hh
      | none =>
          rw [hf.1] at hh
          exact fun _ => c9 (hf.2.1 ▸ hinv hh)

theorem reloadInternal_ok_handle (env : Env) (s : Impl)
    (hok : (reloadInternal env s).1 = true) :
    ∃ h, (reloadInternal env s).2.lib.handle = some h := by
  cases hb : (canReload env s).1 with
  | false =>
      rw [reloadInternal_of_canReload_false env s hb] at hok
      simp at hok
  | true =>
      rw [reloadInternal_of_canReload_true env s hb] at hok ⊢
      obtain ⟨c1, c2, -⟩ := reloadCore_spec env (canReload env s).2
      rw [c1] at hok
      rw [c2]
      exact Option.isSome_iff_exists.mp hok

theorem finishGetSymbol_handle (env : Env) (s : Impl) (name : String)
    (r : Nat) :
    (finishGetSymbol env s name r).st.lib.handle = s.lib.handle := by
  cases hf : s.lib.symbol_cache.find? (fun p => p.1 == name) with
  | some p => simp [finishGetSymbol, hf]
  | none =>
      cases hd : env.dlsym s.lib.handle name <;>
        simp [finishGetSymbol, implGetSymbolInternal, hf, hd]

theorem finishGetSymbol_cacheInv_of_some (env : Env) (s : Impl)
    (name : String) (r : Nat) (h : Nat) (hl : s.lib.handle = some h) :
    CacheInv (finishGetSymbol env s name r).st := by
  intro hn
  rw [finishGetSymbol_handle, hl] at hn
  cases hn

theorem load_cache_empty (env : Env) (s : Impl) (p : String) (m : Bool)
    (hinv : CacheInv s) :
    (load env s p m).2.lib.symbol_cache = [] := by
  have step : ∀ t : Impl, t.lib.symbol_cache = [] →
      ∀ u : Impl, u = t →
      (match validatePath env u p with
        | (false, s2) => (false, s2)
        | (true, s2) =>
            loadInternal env { s2 with lib :=
              { s2.lib with path := p,
                            last_modified := getFileModificationTime env p },
                                       auto_reload := m }
        ).2.lib.symbol_cache = [] := by
    intro t ht u hu
    subst hu
    by_cases hp : p = ""
    · simp [validatePath, hp, ht]
    · cases hacc : env.fileAccessible p with
      | false => simp [validatePath, hp, hacc, ht]
      | true =>
          cases hd : env.dlopenNow p <;>
            simp [validatePath, loadInternal, hp, hacc, hd, ht]
  cases hh : s.lib.handle with
  | none => simpa [load, hh] using step s (hinv hh) s rfl
  | some h =>
      simpa [load, hh] using
        step (unloadInternal env s).2
          (unloadInternal_cache_some env s h hh) (unloadInternal env s).2 rfl

/-- C1: `checkForUpdates` compares the file's current modification
timestamp against the stored baseline and returns true iff the current
timestamp is strictly newer; it is a pure query (its result is only a
`Bool`, so no handle state is mutated), and when the file is transiently
inaccessible (`stat` failure) the observed timestamp falls back to `now`,
still compared with the same strict order, rather than raising. -/
theorem checkForUpdates_spec (env : Env) (s : Impl) :
    (checkForUpdates env s = true ↔
      getFileModificationTime env s.lib.path > s.lib.last_modified) ∧
    (env.mtime s.lib.path = none →
      checkForUpdates env s = decide (env.now > s.lib.last_modified)) := by
  constructor
  · simp [checkForUpdates, needsReload]
  · intro h
    simp [checkForUpdates, needsReload, getFileModificationTime, h]

/-- Witness for C1: on the fresh record (baseline 0) under a platform whose
`stat` fails, the query falls back to comparing `now = 100` with the
baseline. -/
theorem checkForUpdates_spec_witness :
    envNoM.mtime ({} : Impl).lib.path = none ∧
    checkForUpdates envNoM {}
      = decide (envNoM.now > ({} : Impl).lib.last_modified) :=
  ⟨rfl, (checkForUpdates_spec envNoM {}).2 rfl⟩

/-- C6: `unload` is idempotent with respect to success: on an
already-unloaded handle it is a no-op returning success, a second `unload`
right after any `unload` succeeds and changes nothing, and when the
platform unloader reports an error `unload` returns failure but still
clears the handle, so `isLoaded` is false afterwards. -/
theorem unload_idempotent_spec (env env' : Env) (s : Impl) :
    (s.lib.handle = none → unload env s = (true, s)) ∧
    (unload env' (unload env s).2 = (true, (unload env s).2)) ∧
    (∀ h, s.lib.handle = some h → env.dlcloseOk h = false →
      (unload env s).1 = false ∧ isLoaded (unload env s).2 = false) := by
  refine ⟨?_, ?_, ?_⟩
  · intro hn; simp [unload, unloadInternal, hn]
  · have hn : (unload env s).2.lib.handle = none :=
      unloadInternal_handle_eq_none env s
    set X := (unload env s).2 with hX
    simp [unload, unloadInternal, hn]
  · intro h hh hc
    simp [unload, unloadInternal, isLoaded, hh, hc]

/-- Witness for C6: with the platform unloader failing, `unload` on a
loaded handle reports failure yet forgets the handle, and a following
`unload` is a no-op success. -/
theorem unload_idempotent_spec_witness :
    (unload envCloseFail implLoadedT).1 = false ∧
    isLoaded (unload envCloseFail implLoadedT).2 = false ∧
    unload envT (unload envCloseFail implLoadedT).2
      = (true, (unload envCloseFail implLoadedT).2) := by
  have t := unload_idempotent_spec envCloseFail envT implLoadedT
  exact ⟨(t.2.2 12 rfl rfl).1, (t.2.2 12 rfl rfl).2, t.2.1⟩

/-- C9: a failed `load` is not atomic with respect to the previous module:
on an already-loaded handle the current module is unloaded before the new
path is validated, so when validation fails (empty path or inaccessible
file) the handle ends up unloaded with the previous module gone. -/
theorem load_not_atomic (env : Env) (s : Impl) (h : Nat) (p : String)
    (m : Bool) (hl : s.lib.handle = some h)
    (hv : p = "" ∨ env.fileAccessible p = false) :
    (load env s p m).1 = false ∧
    (load env s p m).2.lib.handle = none ∧
    isLoaded (load env s p m).2 = false := by
  have hn := unloadInternal_handle_eq_none env s
  by_cases hp : p = ""
  · simp [load, validatePath, isLoaded, hl, hp, hn]
  · rcases hv with hv | hv
    · exact absurd hv hp
    · simp [load, validatePath, isLoaded, hl, hp, hv, hn]

/-- Witness for C9: loading an inaccessible path over a loaded handle
fails and leaves the handle unloaded. -/
theorem load_not_atomic_witness :
    (load envNoFile implLoadedT "libb" true).1 = false ∧
    (load envNoFile implLoadedT "libb" true).2.lib.handle = none ∧
    isLoaded (load envNoFile implLoadedT "libb" true).2 = false :=
  load_not_atomic envNoFile implLoadedT 12 "libb" true rfl (Or.inr rfl)

/-- C10: on an unloaded handle `canReload` returns the cached verdict
(default true) without probing or mutating anything, so `touch` with
auto-reload enabled still runs the full unload-then-load sequence on the
stored path and can transition an unloaded handle to loaded, unlike
`reload`, which refuses when nothing is loaded. -/
theorem canReload_unloaded_touch (env : Env) (s : Impl) (h : Nat)
    (hn : s.lib.handle = none) (hcr : s.lib.can_reload = true)
    (ha : s.auto_reload = true) (hop : env.dlopenNow s.lib.path = some h) :
    canReload env s = (s.lib.can_reload, s) ∧
    (touch env s).1 = true ∧
    (touch env s).2.lib.handle = some h ∧
    isLoaded (touch env s).2 = true ∧
    reload env s = (false, s) := by
  refine ⟨by simp [canReload, hn], ?_, ?_, ?_, by simp [reload, hn]⟩
  all_goals
    simp [touch, reloadInternal, canReload, reloadCore, unloadInternal,
      loadInternal, isLoaded, hn, hcr, ha, hop]

/-- Witness for C10: the default (never loaded) record has the default
verdict true, and `touch` under `envT` loads handle 12 while `reload`
refuses. -/
theorem canReload_unloaded_touch_witness :
    canReload envT ({} : Impl) = (true, {}) ∧
    (touch envT {}).1 = true ∧
    (touch envT {}).2.lib.handle = some 12 ∧
    reload envT {} = (false, {}) := by
  have t := canReload_unloaded_touch envT {} 12 rfl rfl rfl rfl
  exact ⟨t.1, t.2.1, t.2.2.1, t.2.2.2.2⟩

/-- C7: `reload` returns false as a no-op when nothing is loaded; when a
module is loaded it first runs the capability probe, and a negative
verdict fails the reload with the unsupported-reload error while leaving
handle, cache, path and baseline unchanged — the module stays loaded. -/
theorem reload_noop_unsupported (env : Env) (s : Impl) :
    (s.lib.handle = none → reload env s = (false, s)) ∧
    (∀ h, s.lib.handle = some h → (canReload env s).1 = false →
      (reload env s).1 = false ∧
      (reload env s).2.lib.handle = s.lib.handle ∧
      (reload env s).2.lib.symbol_cache = s.lib.symbol_cache ∧
      (reload env s).2.lib.path = s.lib.path ∧
      (reload env s).2.lib.last_modified = s.lib.last_modified ∧
      isLoaded (reload env s).2 = true ∧
      (reload env s).2.error_message =
        "Library cannot be reloaded - reload capability not supported") := by
  constructor
  · intro hn; simp [reload, hn]
  · intro h hl hcr
    have hre : reload env s = reloadInternal env s := by simp [reload, hl]
    rw [hre, reloadInternal_of_canReload_false env s hcr]
    have hf := canReload_fields env s
    simp [isLoaded, hf.1, hf.2.1, hf.2.2.1, hf.2.2.2.1, hl]

/-- Witness for C7: under a platform whose `dlclose` fails, the probe on
`implLoadedT` reports not reloadable, and `reload` fails with the
unsupported-reload message while the module stays loaded. -/
theorem reload_noop_unsupported_witness :
    (reload envCloseFail implLoadedT).1 = false ∧
    isLoaded (reload envCloseFail implLoadedT).2 = true ∧
    (reload envCloseFail implLoadedT).2.error_message =
      "Library cannot be reloaded - reload capability not supported" := by
  have t := (reload_noop_unsupported envCloseFail implLoadedT).2 12 rfl rfl
  exact ⟨t.1, t.2.2.2.2.2.1, t.2.2.2.2.2.2⟩

theorem load_probe_fields (env : Env) (s : Impl) (p : String) (m : Bool) :
    (load env s p m).2.lib.reload_capability_tested
      = s.lib.reload_capability_tested ∧
    (load env s p m).2.lib.can_reload = s.lib.can_reload := by
  have step : ∀ t : Impl,
      t.lib.reload_capability_tested = s.lib.reload_capability_tested →
      t.lib.can_reload = s.lib.can_reload →
      ∀ u : Impl, u = t →
      ((match validatePath env u p with
        | (false, s2) => (false, s2)
        | (true, s2) =>
            loadInternal env { s2 with lib :=
              { s2.lib with path := p,
                            last_modified := getFileModificationTime env p },
                                       auto_reload := m }
        ).2.lib.reload_capability_tested = s.lib.reload_capability_tested ∧
       (match validatePath env u p with
        | (false, s2) => (false, s2)
        | (true, s2) =>
            loadInternal env { s2 with lib :=
              { s2.lib with path := p,
                            last_modified := getFileModificationTime env p },
                                       auto_reload := m }
        ).2.lib.can_reload = s.lib.can_reload) := by
    intro t h1 h2 u hu
    subst hu
    by_cases hp : p = ""
    · simp [validatePath, hp, h1, h2]
    · cases hacc : env.fileAccessible p with
      | false => simp [validatePath, hp, hacc, h1, h2]
      | true =>
          cases hd : env.dlopenNow p <;>
            simp [validatePath, loadInternal, hp, hacc, hd, h1, h2]
  cases hh : s.lib.handle with
  | none => simpa [load, hh] using step s rfl rfl s rfl
  | some h =>
      have hf := unloadInternal_fields env s
      simpa [load, hh] using
        step (unloadInternal env s).2 hf.2.2.1 hf.2.2.2.1
          (unloadInternal env s).2 rfl

/-- C2 counterexample: the claim says every fresh successful load resets
`reload_capability_tested`, but after a capability probe (here one that
cached the verdict false) a new successful `load` leaves the flag set, and
the next `canReload` returns the stale verdict instead of probing the new
load (under `envT` a fresh probe would report true). -/
theorem load_resets_probe_cex :
    implProbedT.lib.reload_capability_tested = true ∧
    (load envT implProbedT "liba" true).1 = true ∧
    (load envT implProbedT "liba" true).2.lib.reload_capability_tested
      = true ∧
    (canReload envT (load envT implProbedT "liba" true).2).1 = false :=
  ⟨rfl, rfl, rfl, rfl⟩

/-- C2 (amended): the reload-capability verdict is computed at most once
per load — once `reload_capability_tested` is set, `canReload` returns the
cached verdict with no probe and no state change — and a fresh load clears
the symbol cache; but `load` does NOT reset `reload_capability_tested` or
`can_reload`, so after a new load `canReload` returns the verdict cached
from the previous load rather than probing anew. -/
theorem canReload_memoized (env env' : Env) (s : Impl)
    (ht : s.lib.reload_capability_tested = true)
    (hinv : CacheInv s) (p : String) (m : Bool) :
    canReload env s = (s.lib.can_reload, s) ∧
    (load env' s p m).2.lib.reload_capability_tested = true ∧
    (load env' s p m).2.lib.can_reload = s.lib.can_reload ∧
    (load env' s p m).2.lib.symbol_cache = [] := by
  have hf := load_probe_fields env' s p m
  exact ⟨canReload_of_tested env s ht, hf.1.trans ht, hf.2,
    load_cache_empty env' s p m hinv⟩

/-- Witness for C2 (amended): on the probed record, `canReload` is a pure
cached read, and a fresh load keeps the flag and clears the cache. -/
theorem canReload_memoized_witness :
    canReload envT implProbedT = (false, implProbedT) ∧
    (load envT implProbedT "liba" true).2.lib.reload_capability_tested
      = true ∧
    (load envT implProbedT "liba" true).2.lib.symbol_cache = [] := by
  have t := canReload_memoized envT envT implProbedT rfl
    (fun _ => rfl) "liba" true
  exact ⟨t.1, t.2.1, t.2.2.2⟩

/-- C3: the state invariant "symbol cache empty whenever the handle is
null" is preserved by `load`, `unload`, `reload`, `getSymbol` and `touch`;
the handle is non-null iff the record reports loaded; and `unload` on a
loaded record clears the symbol cache even when the platform unloader
fails (the clear happens before the unloader is consulted). -/
theorem ops_preserve_cacheInv (env : Env) (s : Impl) (p name : String)
    (m : Bool) (hinv : CacheInv s) :
    CacheInv (load env s p m).2 ∧
    CacheInv (unload env s).2 ∧
    CacheInv (reload env s).2 ∧
    CacheInv (getSymbolInternal env s name).st ∧
    CacheInv (touch env s).2 ∧
    (isLoaded s = true ↔ s.lib.handle ≠ none) ∧
    (∀ h, s.lib.handle = some h →
      (unload env s).2.lib.symbol_cache = []) := by
  refine ⟨fun _ => load_cache_empty env s p m hinv,
    fun _ => unloadInternal_cache_empty env s hinv, ?_, ?_, ?_, ?_, ?_⟩
  · cases hh : s.lib.handle with
    | none => simpa [reload, hh] using hinv
    | some h =>
        have hr : reload env s = reloadInternal env s := by simp [reload, hh]
        rw [hr]
        exact reloadInternal_cacheInv env s hinv
  · cases hh : s.lib.handle with
    | none =>
        intro hn
        simp [getSymbolInternal, hh] at hn ⊢
        exact hinv hh
    | some h =>
        cases hb : s.auto_reload && needsReload env s with
        | false =>
            have hg : getSymbolInternal env s name
                = finishGetSymbol env s name 0 := by
              simp [getSymbolInternal, hh, hb]
            rw [hg]
            exact finishGetSymbol_cacheInv_of_some env s name 0 h hh
        | true =>
            rcases hrl : reloadInternal env s with ⟨rb, rs⟩
            cases rb with
            | false =>
                have hg : getSymbolInternal env s name = ⟨none, rs, 1, 0⟩ := by
                  simp [getSymbolInternal, hh, hb, hrl]
                rw [hg]
                have := reloadInternal_cacheInv env s hinv
                rwa [hrl] at this
            | true =>
                have hg : getSymbolInternal env s name
                    = finishGetSymbol env rs name 1 := by
                  simp [getSymbolInternal, hh, hb, hrl]
                rw [hg]
                obtain ⟨h2, hh2⟩ := reloadInternal_ok_handle env s
                  (by rw [hrl])
                rw [hrl] at hh2
                exact finishGetSymbol_cacheInv_of_some env rs name 1 h2 hh2
  · have hinv1 : CacheInv { s with lib :=
        { s.lib with last_modified := env.now } } := by
      intro hn
      simp only at hn ⊢
      exact hinv hn
    cases ha : s.auto_reload with
    | false =>
        intro hn
        simp [touch, ha] at hn ⊢
        exact hinv hn
    | true =>
        have hg : touch env s = reloadInternal env
            { s with lib := { s.lib with last_modified := env.now } } := by
          simp [touch, ha]
        rw [hg]
        exact reloadInternal_cacheInv env _ hinv1
  · simp [isLoaded, Option.isSome_iff_ne_none]
  · exact fun h hh => unloadInternal_cache_some env s h hh

/-- Witness for C3: the invariant facts evaluated on the loaded test
record. -/
theorem ops_preserve_cacheInv_witness :
    (unload envT implLoadedT).2.lib.symbol_cache = [] ∧
    (isLoaded implLoadedT = true ↔ implLoadedT.lib.handle ≠ none) := by
  have t := ops_preserve_cacheInv envT implLoadedT "liba" "f" true
    (fun _ => rfl)
  exact ⟨t.2.2.2.2.2.2 12 rfl, t.2.2.2.2.2.1⟩

/-- C4: with auto-reload enabled and the file newer than the baseline, a
`getSymbol` call performs exactly one internal reload; if the reload fails
the call fails with the reload's resulting state (no stale cache is
consulted), and if it succeeds the returned address is the fresh platform
resolution against the reloaded handle (one platform resolution, cache
cleared by the reload).  With auto-reload disabled the same call returns
the previously cached address with no reload and no resolution. -/
theorem getSymbol_autoReload_contract (env : Env) (s : Impl) (h : Nat)
    (name : String) (hl : s.lib.handle = some h) :
    (s.auto_reload = true → needsReload env s = true →
      (getSymbolInternal env s name).reloads = 1 ∧
      ((reloadInternal env s).1 = false →
        (getSymbolInternal env s name).symbol = none ∧
        (getSymbolInternal env s name).st = (reloadInternal env s).2) ∧
      ((reloadInternal env s).1 = true →
        (getSymbolInternal env s name).resolutions = 1 ∧
        (getSymbolInternal env s name).symbol =
          env.dlsym (reloadInternal env s).2.lib.handle name)) ∧
    (s.auto_reload = false →
      ∀ q, s.lib.symbol_cache.find? (fun x => x.1 == name) = some q →
        getSymbolInternal env s name = ⟨some q.2, s, 0, 0⟩) := by
  constructor
  · intro ha hnr
    have hcond : (s.auto_reload && needsReload env s) = true := by
      rw [ha, hnr]; rfl
    rcases hrl : reloadInternal env s with ⟨rb, rs⟩
    cases rb with
    | false =>
        have hg : getSymbolInternal env s name = ⟨none, rs, 1, 0⟩ := by
          simp [getSymbolInternal, hl, hcond, hrl]
        rw [hg]
        exact ⟨rfl, fun _ => ⟨rfl, rfl⟩, fun hc => by simp at hc⟩
    | true =>
        have hcache : rs.lib.symbol_cache = [] := by
          cases hb : (canReload env s).1 with
          | false =>
              rw [reloadInternal_of_canReload_false env s hb] at hrl
              simp at hrl
          | true =>
              have hrc := reloadInternal_of_canReload_true env s hb
              rw [hrl] at hrc
              obtain ⟨-, -, -, -, -, -, -, c8, -⟩ :=
                reloadCore_spec env (canReload env s).2
              have := c8 h ((canReload_fields env s).1.trans hl)
              rw [← hrc] at this
              exact this
        have hg : getSymbolInternal env s name
            = finishGetSymbol env rs name 1 := by
          simp [getSymbolInternal, hl, hcond, hrl]
        rw [hg]
        refine ⟨?_, fun hc => by simp at hc, fun _ => ?_⟩
        · cases hd : env.dlsym rs.lib.handle name <;>
            simp [finishGetSymbol, implGetSymbolInternal, hcache, hd]
        · cases hd : env.dlsym rs.lib.handle name <;>
            simp [finishGetSymbol, implGetSymbolInternal, hcache, hd]
  · intro ha q hq
    have hcond : (s.auto_reload && needsReload env s) = false := by
      rw [ha]; rfl
    simp [getSymbolInternal, finishGetSymbol, hl, hcond, hq]

/-- Witness for C4: under `envStale` (file time 9 > baseline 5) the loaded
test record reloads exactly once and resolves freshly; with auto-reload
disabled the cached address is returned untouched. -/
theorem getSymbol_autoReload_contract_witness :
    (getSymbolInternal envStale implLoadedT "f").reloads = 1 ∧
    (getSymbolInternal envStale implLoadedT "f").resolutions = 1 ∧
    (getSymbolInternal envStale implLoadedT "f").symbol =
      envStale.dlsym (reloadInternal envStale implLoadedT).2.lib.handle "f" ∧
    getSymbolInternal envStale implCachedNoAuto "f"
      = ⟨some 77, implCachedNoAuto, 0, 0⟩ := by
  have t := getSymbol_autoReload_contract envStale implLoadedT 12 "f" rfl
  have t1 := t.1 rfl rfl
  have t2 := t1.2.2 rfl
  have u := getSymbol_autoReload_contract envStale implCachedNoAuto 12 "f" rfl
  exact ⟨t1.1, t2.1, t2.2, u.2 rfl ("f", 77) rfl⟩

theorem getSymbolInternal_cache_hit (env : Env) (t : Impl) (h : Nat)
    (name : String) (q : String × Nat)
    (hl : t.lib.handle = some h)
    (hcond : (t.auto_reload && needsReload env t) = false)
    (hq : t.lib.symbol_cache.find? (fun x => x.1 == name) = some q) :
    getSymbolInternal env t name = ⟨some q.2, t, 0, 0⟩ := by
  simp [getSymbolInternal, finishGetSymbol, hl, hcond, hq]

/-- C5: on a handle with no module loaded, `getSymbol` fails with a null
result and the "Library not loaded" error; on a loaded handle, if the
first call (with no reload, because auto-reload is off or the file is not
stale) returns an address, an immediately repeated call for the same name
returns the identical address and performs no new platform resolution. -/
theorem getSymbol_notLoaded_and_cache (env : Env) (s : Impl)
    (name : String) :
    (s.lib.handle = none →
      getSymbolInternal env s name =
        ⟨none, { s with error_message := "Library not loaded" }, 0, 0⟩) ∧
    (∀ h a, s.lib.handle = some h →
      s.auto_reload = false ∨ needsReload env s = false →
      (getSymbolInternal env s name).symbol = some a →
      (getSymbolInternal env (getSymbolInternal env s name).st name).symbol
        = some a ∧
      (getSymbolInternal env
        (getSymbolInternal env s name).st name).resolutions = 0) := by
  constructor
  · intro hn; simp [getSymbolInternal, hn]
  · intro h a hl hna hsym
    have hcond : (s.auto_reload && needsReload env s) = false := by
      rcases hna with hna | hna <;> simp [hna]
    have hg : getSymbolInternal env s name = finishGetSymbol env s name 0 := by
      simp [getSymbolInternal, hl, hcond]
    rw [hg] at hsym ⊢
    cases hf : s.lib.symbol_cache.find? (fun x => x.1 == name) with
    | some q =>
        have hfin : finishGetSymbol env s name 0 = ⟨some q.2, s, 0, 0⟩ := by
          simp [finishGetSymbol, hf]
        rw [hfin] at hsym ⊢
        simp only at hsym ⊢
        rw [hg, hfin]
        exact ⟨hsym, rfl⟩
    | none =>
        cases hd : env.dlsym s.lib.handle name with
        | none =>
            have hfin : finishGetSymbol env s name 0
                = ⟨none, { s with error_message :=
                    "Symbol '" ++ name ++ "' not found in library '"
                      ++ s.lib.path ++ "': " ++ env.dlerrorMsg }, 0, 1⟩ := by
              simp [finishGetSymbol, implGetSymbolInternal, hf, hd]
            rw [hfin] at hsym
            simp at hsym
        | some sym =>
            have hfin : finishGetSymbol env s name 0
                = ⟨some sym, { s with lib := { s.lib with symbol_cache :=
                    (name, sym) :: s.lib.symbol_cache } }, 0, 1⟩ := by
              simp [finishGetSymbol, implGetSymbolInternal, hf, hd]
            rw [hfin] at hsym ⊢
            simp only at hsym ⊢
            have heq : sym = a := by simpa using hsym
            subst heq
            have hf2 : ((name, sym) :: s.lib.symbol_cache).find?
                (fun x => x.1 == name) = some (name, sym) :=
              List.find?_cons_of_pos _ (by simp)
            have hhit := getSymbolInternal_cache_hit env
              { s with lib := { s.lib with symbol_cache :=
                  (name, sym) :: s.lib.symbol_cache } } h name (name, sym)
              hl hcond hf2
            rw [hhit]
            exact ⟨rfl, rfl⟩

/-- Witness for C5: the never-loaded record fails with the not-loaded
error; on the loaded record, a second lookup of "f" right after the first
returns the same address 77 with zero platform resolutions. -/
theorem getSymbol_notLoaded_and_cache_witness :
    getSymbolInternal envT ({} : Impl) "f" =
      ⟨none, { ({} : Impl) with
        error_message := "Library not loaded" }, 0, 0⟩ ∧
    (getSymbolInternal envT
      (getSymbolInternal envT implLoadedT "f").st "f").symbol = some 77 ∧
    (getSymbolInternal envT
      (getSymbolInternal envT implLoadedT "f").st "f").resolutions = 0 := by
  have t := getSymbol_notLoaded_and_cache envT ({} : Impl) "f"
  have u := (getSymbol_notLoaded_and_cache envT implLoadedT "f").2
    12 77 rfl (Or.inr rfl) rfl
  exact ⟨t.1 rfl, u.1, u.2⟩

/-- C8: registry semantics — `loadLibrary` on a registered name returns
the existing handle and leaves the registry unchanged, ignoring the new
path and mode arguments; `unloadLibrary` on an unknown name is a no-op;
and `checkAllForUpdates` (a pure query, so it performs no reload) returns
true iff some registered handle reports an update. -/
theorem manager_registry_spec (env : Env) (m : Manager)
    (name p_path : String) (mode : Bool) :
    (∀ lib, getLibrary m name = some lib →
      loadLibrary env m name p_path mode = Except.ok (lib, m)) ∧
    (getLibrary m name = none → unloadLibrary m name = m) ∧
    (checkAllForUpdates env m = true ↔
      ∃ q ∈ m, checkForUpdates env q.2 = true) := by
  refine ⟨?_, ?_, ?_⟩
  · intro lib hlib
    unfold getLibrary at hlib
    cases hf : m.find? (fun q => q.1 == name) with
    | none => rw [hf] at hlib; cases hlib
    | some q =>
        rw [hf] at hlib
        simp only [Option.map_some', Option.some.injEq] at hlib
        simp [loadLibrary, hf, hlib]
  · intro hnone
    unfold getLibrary at hnone
    have hf : m.find? (fun q => q.1 == name) = none := by
      cases hf : m.find? (fun q => q.1 == name) with
      | none => rfl
      | some q => rw [hf] at hnone; cases hnone
    have hall := List.find?_eq_none.mp hf
    unfold unloadLibrary
    apply List.filter_eq_self.mpr
    intro q hq
    simpa using hall q hq
  · simp [checkAllForUpdates, List.any_eq_true]

/-- Witness for C8: on the one-entry registry, re-registering "a" with a
different path and mode hands back the original handle unchanged, erasing
an unknown name changes nothing, and the stale platform makes the sweep
report true. -/
theorem manager_registry_spec_witness :
    loadLibrary envT mgrT "a" "otherpath" false
      = Except.ok (implLoadedT, mgrT) ∧
    unloadLibrary mgrT "zzz" = mgrT ∧
    checkAllForUpdates envStale mgrT = true := by
  have t := manager_registry_spec envT mgrT "a" "otherpath" false
  have u := manager_registry_spec envT mgrT "zzz" "x" true
  refine ⟨t.1 implLoadedT rfl, u.2.1 rfl, ?_⟩
  exact (manager_registry_spec envStale mgrT "a" "x" true).2.2.mpr
    ⟨("a", implLoadedT), by simp [mgrT], rfl⟩

end DynLib
